import Mathlib

/-!
Verification of the Billy Bass interaction orchestrator (billy-bass.js).

The development shallowly embeds the program:
* `setMotor`, `stopMotor`, `stopAll` embed `MotorController.setMotor`,
  `stopMotor`, `stopAll` (billy-bass.js lines 123-172).  GPIO writes are
  recorded as `GpioWrite` values; the `env` parameter tells which `gpioset`
  invocations exit successfully, and the try/catch of the source is modelled
  by the `Except` result always being `.ok` (errors are swallowed).
* `run` embeds `BillyBass.handleButtonPress` (lines 456-495) together with
  the phase helpers `turnTowardUser`, `listenForSpeech`, `speakWithAnimation`,
  `animateSpeech`, `returnToIdle` and `sayError` (lines 498-583).  Collaborator
  outcomes (recording, transcription, AI, TTS, playback) are supplied by a
  `Collab` record; scheduling choices of the JavaScript event loop (the random
  animation pattern, the point at which `Promise.all` rejects, and the
  interleaving of the still-running animation with the cleanup path) are
  supplied by a `Sched` record.  The trace of a run is the list of observable
  events (motor commands and collaborator calls) in the order they occur.
* `pollStep` embeds one tick of the `setInterval` button watcher
  (lines 413-426); `watchRun` iterates it over a stream of GPIO readings.
* `applyWrites` / `readGpio` model the gpiochip line store shared by
  `gpioset` and `gpioget`: a write drives the line, a read returns the last
  driven level (lines idle at 1 because of the configured pull-up).
-/

namespace BillyBass

/-! ### Configuration constants (billy-bass.js lines 14-58, CONFIG) -/

def BUTTON_PIN : Nat := 17
def MOTOR_BODY_PIN1 : Nat := 17
def MOTOR_BODY_PIN2 : Nat := 27
def MOTOR_BODY_PWM : Nat := 12
def MOTOR_MOUTH_PIN1 : Nat := 22
def MOTOR_MOUTH_PIN2 : Nat := 23
def MOTOR_MOUTH_PWM : Nat := 12
def MOTOR_TAIL_PIN1 : Nat := 24
def MOTOR_TAIL_PIN2 : Nat := 25
def MOTOR_TAIL_PWM : Nat := 13
def BODY_TURN_SPEED : Int := 60
def BODY_TURN_DURATION : Nat := 2000
def MOUTH_SPEED : Int := 70
def TAIL_SPEED : Int := 50

/-- Fallback reply returned by `FishAI.getResponse` when the AI call fails
(billy-bass.js line 380); the collaborator never raises. -/
def FALLBACK_RESPONSE : String := "Something\x27s fishy here! Let\x27s try that again."

/-- Fixed apology phrase spoken by `BillyBass.sayError` (line 580). -/
def ERROR_MESSAGE : String := "I didn\x27t catch that, but I\x27m all ears... or fins!"

/-! ### Motor controller (billy-bass.js lines 64-185) -/

/-- One `gpioset gpiochip0 pin=value` invocation. -/
structure GpioWrite where
  pin : Nat
  value : Nat
deriving DecidableEq, Repr

/-- Direction/enable pins of one motor, as in `this.motors` (lines 67-71). -/
structure Motor where
  pin1 : Nat
  pin2 : Nat
  pwm : Nat
deriving DecidableEq, Repr

/-- The `this.motors` lookup table (lines 67-71): `this.motors[motorName]`
yields `undefined` for unknown names, modelled by `none`. -/
def motors (name : String) : Option Motor :=
  if name = "body" then some ⟨MOTOR_BODY_PIN1, MOTOR_BODY_PIN2, MOTOR_BODY_PWM⟩
  else if name = "mouth" then some ⟨MOTOR_MOUTH_PIN1, MOTOR_MOUTH_PIN2, MOTOR_MOUTH_PWM⟩
  else if name = "tail" then some ⟨MOTOR_TAIL_PIN1, MOTOR_TAIL_PIN2, MOTOR_TAIL_PWM⟩
  else none

/-- The clamp `speed = Math.max(-100, Math.min(100, speed))` (line 136). -/
def clampSpeed (s : Int) : Int := max (-100) (min 100 s)

/-- `MotorController.setMotor` (lines 123-160).  `env pin value` tells whether
the `gpioset` child process for that write exits with code 0.  The result is
the list of `gpioset` invocations issued; when the first write fails the
rejection is caught by the try/catch of the source, so the second write is not
issued and the call still returns normally (`.ok`).  When `inited` is
false or the motor name is unknown the call logs and returns with no GPIO
command at all. -/
def setMotor (env : Nat → Nat → Bool) (inited : Bool) (name : String)
    (speed : Int) : Except String (List GpioWrite) :=
  if inited = false then .ok []
  else
    match motors name with
    | none => .ok []
    | some m =>
      let s := clampSpeed speed
      let w1 : GpioWrite :=
        if s = 0 then ⟨m.pin1, 0⟩ else if 0 < s then ⟨m.pin1, 1⟩ else ⟨m.pin1, 0⟩
      let w2 : GpioWrite :=
        if s = 0 then ⟨m.pin2, 0⟩ else if 0 < s then ⟨m.pin2, 0⟩ else ⟨m.pin2, 1⟩
      if env w1.pin w1.value then .ok [w1, w2] else .ok [w1]

/-- `MotorController.stopMotor` (lines 163-165): literally `setMotor(name, 0)`. -/
def stopMotor (env : Nat → Nat → Bool) (inited : Bool) (name : String) :
    Except String (List GpioWrite) :=
  setMotor env inited name 0

/-- `MotorController.stopAll` (lines 168-172). -/
def stopAll (env : Nat → Nat → Bool) (inited : Bool) :
    Except String (List GpioWrite) := do
  let a ← setMotor env inited "body" 0
  let b ← setMotor env inited "mouth" 0
  let c ← setMotor env inited "tail" 0
  pure (a ++ b ++ c)

/-- Environment in which every `gpioset` succeeds (the nominal case). -/
def allOk : Nat → Nat → Bool := fun _ _ => true

/-! ### The gpiochip line store shared by gpioset and gpioget -/

/-- Apply a sequence of `gpioset` writes to the line store: a write drives the
named line to the written level. -/
def applyWrites (st : Nat → Nat) (ws : List GpioWrite) : Nat → Nat :=
  ws.foldl (fun acc w => fun p => if p = w.pin then w.value else acc p) st

/-- `BillyBass.readGPIO` (lines 434-453) runs `gpioget gpiochip0 pin` and
returns the current level of the line. -/
def readGpio (st : Nat → Nat) (pin : Nat) : Nat := st pin

/-- Idle line store: with the internal pull-up and no button pressed and no
line driven, every line reads 1. -/
def idleLines : Nat → Nat := fun _ => 1

/-! ### Orchestrator events and collaborator outcomes -/

/-- Observable events of one interaction, in program order:
`cmd` is a `motorController.setMotor` call (a `stopMotor` call is
`cmd name 0`, exactly as in the source), `stopAllCall` is a
`motorController.stopAll` call, the remaining constructors mark the
collaborator calls of `handleButtonPress`. -/
inductive Event where
  | cmd (name : String) (speed : Int)
  | stopAllCall
  | sleepEv (ms : Nat)
  | recordEv
  | transcribeEv
  | generateEv (userMessage : String)
  | ttsEv (text : String)
  | getDurationEv
  | playEv
deriving DecidableEq, Repr

/-- Outcomes of the external collaborators during one interaction.
`transcript` is what `transcribeAudio` returns when recording succeeded
(`none` models the `null` returned on a transcription error, line 265);
`aiOk/aiText` describe `FishAI.getResponse`, which never raises (line 380);
`ttsOk` and `ttsErrOk` tell whether `textToSpeech` resolves for the AI
response and for the apology phrase; `duration`/`durationErr` are the
ffprobe results (`none` selects the 3000 ms fallback, lines 338-347);
`playOk`/`playErrOk` tell whether `playAudio` resolves. -/
structure Collab where
  recordOk : Bool
  transcript : Option String
  aiOk : Bool
  aiText : String
  ttsOk : Bool
  ttsErrOk : Bool
  duration : Option Nat
  durationErr : Option Nat
  playOk : Bool
  playErrOk : Bool

/-- Scheduling choices of the JavaScript event loop: `rand i` supplies the
tail direction and the sleep jitter of animation step `i` (Math.random,
lines 553 and 557); `split` is the number of animation events already
emitted when a rejected playback makes `Promise.all` reject; `leftFirst`
chooses the interleaving of the still-running background animation with the
cleanup path of the outer catch.  `split` and `leftFirst` over-approximate
the schedules the event loop can produce (they are not constrained by the
sleep durations): the universally quantified theorems below hold for all of
them, hence in particular for every real schedule; a theorem that
instantiates a schedule picks one whose realizability is justified in its
doc comment from the timing constants of the source. -/
structure Sched where
  rand : Nat → Bool × Nat
  split : Nat
  leftFirst : List Bool

/-- JavaScript truthiness test `!userSpeech` (line 470): `null` and the empty
string are both falsy. -/
def isFalsy : Option String → Bool
  | none => true
  | some s => s = ""

/-- `BillyBass.listenForSpeech` result (lines 510-519): a recording failure is
caught and yields `null`; a transcription failure already yields `null`
inside `transcribeAudio`. -/
def listenResult (c : Collab) : Option String :=
  if c.recordOk then c.transcript else none

/-- Collaborator calls made by `listenForSpeech`: transcription is only
reached when recording resolved. -/
def listenTrace (c : Collab) : List Event :=
  if c.recordOk then [.recordEv, .transcribeEv] else [.recordEv]

/-- `FishAI.getResponse` (lines 362-382): returns the AI text, or the fixed
fallback phrase when the API call fails; it never raises. -/
def getResponse (c : Collab) : String :=
  if c.aiOk then c.aiText else FALLBACK_RESPONSE

/-- `getAudioDuration` (lines 317-349): the ffprobe duration when available,
otherwise the 3000 ms fallback. -/
def effDuration : Option Nat → Nat
  | some d => d
  | none => 3000

/-- `BillyBass.turnTowardUser` (lines 498-507): drive the body forward at
`BODY_TURN_SPEED`, sleep `BODY_TURN_DURATION`, then `stopMotor` the body
(which is `setMotor 0`). -/
def turnTrace : List Event :=
  [.cmd "body" BODY_TURN_SPEED, .sleepEv BODY_TURN_DURATION, .cmd "body" 0]

/-- `BillyBass.returnToIdle` (lines 566-576): drive the body in reverse at the
same speed, sleep the same duration, then `stopAll`. -/
def returnToIdleTrace : List Event :=
  [.cmd "body" (-BODY_TURN_SPEED), .sleepEv BODY_TURN_DURATION, .stopAllCall]

/-- The while loop of `animateSpeech` (lines 544-558), one list entry per
iteration: toggle the mouth (the toggle happens before the first command, so
iteration `i` drives `MOUTH_SPEED` when `i` is even), wag the tail in the
random direction, and sleep `150 + Math.random() * 100` ms.  The loop runs
while the elapsed time is below `duration`; each iteration advances elapsed
time by its sleep (at least 150 ms), so at most `duration` iterations can
start and the structural fuel `duration + 1` is never exhausted before the
guard fails. -/
def animLoopF (rand : Nat → Bool × Nat) (duration : Nat) :
    Nat → Nat → Nat → List Event
  | 0, _, _ => []
  | fuel + 1, i, elapsed =>
    if elapsed < duration then
      let jitter := (rand i).2 % 100
      Event.cmd "mouth" (if i % 2 = 0 then MOUTH_SPEED else -MOUTH_SPEED)
        :: Event.cmd "tail" (if (rand i).1 then TAIL_SPEED else -TAIL_SPEED)
        :: Event.sleepEv (150 + jitter)
        :: animLoopF rand duration fuel (i + 1) (elapsed + 150 + jitter)
    else []

/-- `BillyBass.animateSpeech` (lines 539-563): the animation loop followed by
the unconditional `stopMotor` of mouth and tail. -/
def animTrace (rand : Nat → Bool × Nat) (duration : Nat) : List Event :=
  animLoopF rand duration (duration + 1) 0 0 ++ [.cmd "mouth" 0, .cmd "tail" 0]

/-- Foreground events of `speakWithAnimation` (lines 522-536): the duration
probe, the playback start, and the animation events emitted before
`Promise.all` settles.  When playback resolves, `Promise.all` waits for both
promises, so the whole animation is in the foreground; when playback rejects,
`Promise.all` rejects immediately (fail-fast) and only the first `split`
animation events have been emitted. -/
def speakFg (playOk : Bool) (dur : Option Nat) (s : Sched) : List Event :=
  [.getDurationEv, .playEv] ++
    (if playOk then animTrace s.rand (effDuration dur)
     else (animTrace s.rand (effDuration dur)).take s.split)

/-- Background remainder of the animation after `Promise.all` rejected: the
animation promise is neither awaited nor cancelled, so its remaining events
still occur, concurrently with whatever the orchestrator does next. -/
def speakBg (playOk : Bool) (dur : Option Nat) (s : Sched) : List Event :=
  if playOk then [] else (animTrace s.rand (effDuration dur)).drop s.split

/-- Interleaving of two concurrent event sequences: each Boolean picks the
next event from the left (background animation) or right (cleanup) sequence;
the relative order inside each sequence is preserved. -/
def merge : List Bool → List Event → List Event → List Event
  | _, [], ys => ys
  | _, x :: xs, [] => x :: xs
  | [], x :: xs, y :: ys => x :: xs ++ (y :: ys)
  | b :: bs, x :: xs, y :: ys =>
    if b then x :: merge bs xs (y :: ys) else y :: merge bs (x :: xs) ys

/-- `BillyBass.handleButtonPress` (lines 456-495).  Returns the full event
trace (including the background remainder of a cancelled-into-the-background
animation) and the final value of `isProcessing`.  The branches mirror the
source: entry guard on `isProcessing`; turn; listen; on a falsy transcript
`sayError` (apology TTS, then the speak path) followed by the early return
that clears `isProcessing` without `returnToIdle`; otherwise AI response,
TTS, speak, `returnToIdle`; any rejection (TTS or playback) is caught by the
outer catch, which runs `returnToIdle`, concurrently with the background
animation when the rejection came from `Promise.all`; the finally block
clears `isProcessing` on every path.  The entry guard on `isProcessing`
(line 457) is the `run` wrapper below. -/
def runStarted (c : Collab) (s : Sched) : List Event × Bool :=
    let pre := turnTrace ++ listenTrace c
    if isFalsy (listenResult c) then
      if c.ttsErrOk then
        if c.playErrOk then
          (pre ++ [.ttsEv ERROR_MESSAGE] ++ speakFg true c.durationErr s, false)
        else
          (pre ++ [.ttsEv ERROR_MESSAGE] ++ speakFg false c.durationErr s ++
            merge s.leftFirst (speakBg false c.durationErr s) returnToIdleTrace, false)
      else
        (pre ++ [.ttsEv ERROR_MESSAGE] ++ returnToIdleTrace, false)
    else
      let msg := (listenResult c).getD ""
      let pre2 := pre ++ [.generateEv msg]
      if c.ttsOk then
        if c.playOk then
          (pre2 ++ [.ttsEv (getResponse c)] ++ speakFg true c.duration s ++
            returnToIdleTrace, false)
        else
          (pre2 ++ [.ttsEv (getResponse c)] ++ speakFg false c.duration s ++
            merge s.leftFirst (speakBg false c.duration s) returnToIdleTrace, false)
      else
        (pre2 ++ [.ttsEv (getResponse c)] ++ returnToIdleTrace, false)

/-- Entry guard of `handleButtonPress` (line 457): an activation delivered
while `isProcessing` is true returns immediately with no event. -/
def run (c : Collab) (s : Sched) (busy : Bool) : List Event × Bool :=
  if busy then ([], true) else runStarted c s

/-! ### The button watcher (billy-bass.js lines 411-426) -/

/-- Result of one tick of the `setInterval` button watcher. -/
structure PollResult where
  lastValue : Nat
  fired : Bool
  events : List Event
  busy : Bool

/-- One tick of the button watcher: read the button line (`none` models a
rejected `gpioget`, which the catch swallows without updating `lastValue`);
on a falling edge with `isProcessing` false, start `handleButtonPress`. -/
def pollStep (c : Collab) (s : Sched) (busy : Bool) (lastValue : Nat)
    (reading : Option Nat) : PollResult :=
  match reading with
  | none => ⟨lastValue, false, [], busy⟩
  | some v =>
    if v = 0 ∧ lastValue = 1 ∧ busy = false then
      let r := run c s busy
      ⟨v, true, r.1, r.2⟩
    else ⟨v, false, [], busy⟩

/-- The watcher iterated over a stream of readings, recording the poll
indices at which an activation fires.  `reads k` is the `gpioget` result of
poll `k` (polls are 100 ms apart), `busy k` the value of `isProcessing` at
poll `k`, `last` the running `lastValue`, `i` the current poll index. -/
def watchRun (reads : Nat → Option Nat) (busy : Nat → Bool) :
    Nat → Nat → Nat → List Nat
  | 0, _, _ => []
  | n + 1, last, i =>
    match reads i with
    | none => watchRun reads busy n last (i + 1)
    | some v =>
      if v = 0 ∧ last = 1 ∧ busy i = false then
        i :: watchRun reads busy n v (i + 1)
      else watchRun reads busy n v (i + 1)

/-- Activation indices over the first `n` polls, starting from the initial
`lastValue` read at startup (line 411). -/
def activations (reads : Nat → Option Nat) (busy : Nat → Bool) (n init : Nat) :
    List Nat :=
  watchRun reads busy n init 0

/-! ### Commanded motor state -/

/-- Commanded intensity of each motor, by name. -/
abbrev MotorState := String → Int

/-- All motors stopped: `MotorController.init` drives every direction pin low
(lines 78-83). -/
def initMotors : MotorState := fun _ => 0

/-- Effect of one event on the commanded motor state: a `setMotor` call on a
known motor sets its (clamped) intensity, `stopAll` stops all known motors,
other events leave the state unchanged. -/
def applyEvent (st : MotorState) (e : Event) : MotorState :=
  match e with
  | .cmd n s => fun m => cond ((motors n).isSome && m == n) (clampSpeed s) (st m)
  | .stopAllCall => fun m => cond (motors m).isSome 0 (st m)
  | _ => st

/-- Fold an event trace over a motor state. -/
def runFold (tr : List Event) (st : MotorState) : MotorState :=
  tr.foldl applyEvent st

/-- Final commanded intensity of motor `m` after a trace, starting from the
all-stopped state established by `MotorController.init`. -/
def finalIntensity (m : String) (tr : List Event) : Int :=
  runFold tr initMotors m

/-- A trace forces motor `m` to intensity 0 whatever the state before it. -/
def ForcesZero (m : String) (tr : List Event) : Prop :=
  ∀ st : MotorState, runFold tr st m = 0

/-- A trace leaves the commanded intensity of motor `m` unchanged. -/
def NeutralFor (m : String) (tr : List Event) : Prop :=
  ∀ st : MotorState, runFold tr st m = st m

/-- A trace either forces motor `m` to 0 or does not touch it. -/
def GoodFor (m : String) (tr : List Event) : Prop :=
  ForcesZero m tr ∨ NeutralFor m tr

/-- Every suffix of the trace is good for motor `m`. -/
def AllSuffGood (m : String) (tr : List Event) : Prop :=
  ∀ n : Nat, GoodFor m (tr.drop n)

/-! ### Promise.all timing (speakWithAnimation, line 535) -/

/-- An already-scheduled promise: whether it resolves, and when it settles. -/
structure Task where
  ok : Bool
  time : Nat
deriving DecidableEq, Repr

/-- `Promise.all` over two tasks: resolves at the later settle time when both
resolve; rejects at the first rejection otherwise, without waiting for the
other task. -/
def promiseAll2 (a b : Task) : Task :=
  if a.ok && b.ok then ⟨true, max a.time b.time⟩
  else if a.ok then ⟨false, b.time⟩
  else if b.ok then ⟨false, a.time⟩
  else ⟨false, min a.time b.time⟩

/-! ### Trace predicates used by the claims -/

/-- Does an event command the body motor in reverse? -/
def isBodyReverse : Event → Bool
  | .cmd n s => n == "body" && decide (s < 0)
  | _ => false

/-- Is an event the `stopAll` call? -/
def isStopAll : Event → Bool
  | .stopAllCall => true
  | _ => false

/-- Is an event a `ResponseGenerator` (FishAI.getResponse) invocation? -/
def isGenEv : Event → Bool
  | .generateEv _ => true
  | _ => false

/-- Does the trace invoke the response generator? -/
def callsGenerator (tr : List Event) : Bool := tr.any isGenEv

/-- Is an event a nonzero drive of the mouth or tail (an animation drive)? -/
def isAnimDrive : Event → Bool
  | .cmd n s => (n == "mouth" || n == "tail") && !(decide (s = 0))
  | _ => false

/-- Shape of animation-loop events: mouth or tail commands and sleeps only. -/
def animShapeOk : Event → Bool
  | .cmd n _ => n == "mouth" || n == "tail"
  | .sleepEv _ => true
  | _ => false

/-- No animation drive occurs at or after the first `stopAll` call of the
trace: the Speaking phase was fully joined before cleanup began. -/
def noAnimAfterStopAll (tr : List Event) : Bool :=
  (tr.dropWhile (fun e => !isStopAll e)).all (fun e => !isAnimDrive e)

/-! ## General lemmas about traces, folds and interleavings -/

theorem runFold_append (xs ys : List Event) (st : MotorState) :
    runFold (xs ++ ys) st = runFold ys (runFold xs st) := by
  simp [runFold, List.foldl_append]

theorem runFold_cons (e : Event) (tr : List Event) (st : MotorState) :
    runFold (e :: tr) st = runFold tr (applyEvent st e) := rfl

theorem forcesZero_append (m : String) (ys : List Event) (h : ForcesZero m ys)
    (xs : List Event) : ForcesZero m (xs ++ ys) := by
  intro st
  rw [runFold_append]
  exact h _

theorem neutral_append (m : String) (ys : List Event) (h : NeutralFor m ys)
    (xs : List Event) (st : MotorState) :
    runFold (xs ++ ys) st m = runFold xs st m := by
  rw [runFold_append]
  exact h _

theorem neutralFor_of_members (m : String) (tr : List Event)
    (h : ∀ e ∈ tr, ∀ st : MotorState, applyEvent st e m = st m) :
    NeutralFor m tr := by
  induction tr with
  | nil => intro st; rfl
  | cons e tr ih =>
    intro st
    rw [runFold_cons, ih (fun x hx st2 => h x (List.mem_cons_of_mem _ hx) st2)]
    exact h e (List.mem_cons_self _ _) st

theorem final_of_append_forces (m : String) (A B : List Event)
    (hB : ForcesZero m B) : finalIntensity m (A ++ B) = 0 := by
  rw [finalIntensity, runFold_append]
  exact hB _

/-- Every event produced by the animation loop drives the mouth or the tail
or sleeps. -/
theorem animLoopF_shape (rand : Nat → Bool × Nat) (d : Nat) :
    ∀ fuel i el e, e ∈ animLoopF rand d fuel i el → animShapeOk e = true := by
  intro fuel
  induction fuel with
  | zero => intro i el e he; simp [animLoopF] at he
  | succ n ih =>
    intro i el e he
    rw [animLoopF] at he
    by_cases hlt : el < d
    · rw [if_pos hlt] at he
      simp only [List.mem_cons] at he
      rcases he with rfl | rfl | rfl | he
      · simp [animShapeOk]
      · simp [animShapeOk]
      · simp [animShapeOk]
      · exact ih _ _ _ he
    · rw [if_neg hlt] at he
      simp at he

theorem animTrace_shape (rand : Nat → Bool × Nat) (d : Nat) :
    ∀ e ∈ animTrace rand d, animShapeOk e = true := by
  intro e he
  rw [animTrace, List.mem_append] at he
  rcases he with he | he
  · exact animLoopF_shape rand d _ _ _ e he
  · rcases (by simpa using he : e = Event.cmd "mouth" 0 ∨ e = Event.cmd "tail" 0) with
      rfl | rfl <;> rfl

theorem shape_neutral_body (e : Event) (h : animShapeOk e = true)
    (st : MotorState) : applyEvent st e "body" = st "body" := by
  cases e with
  | cmd n s =>
    simp only [animShapeOk, Bool.or_eq_true, beq_iff_eq] at h
    rcases h with rfl | rfl <;> rfl
  | sleepEv ms => rfl
  | stopAllCall => simp [animShapeOk] at h
  | recordEv => simp [animShapeOk] at h
  | transcribeEv => simp [animShapeOk] at h
  | generateEv t => simp [animShapeOk] at h
  | ttsEv t => simp [animShapeOk] at h
  | getDurationEv => simp [animShapeOk] at h
  | playEv => simp [animShapeOk] at h

theorem shape_not_stopAll (e : Event) (h : animShapeOk e = true) :
    isStopAll e = false := by
  cases e <;> first | rfl | simp [animShapeOk] at h

theorem shape_not_gen (e : Event) (h : animShapeOk e = true) :
    isGenEv e = false := by
  cases e <;> first | rfl | simp [animShapeOk] at h

theorem shape_not_bodyReverse (e : Event) (h : animShapeOk e = true) :
    isBodyReverse e = false := by
  cases e with
  | cmd n s =>
    simp only [animShapeOk, Bool.or_eq_true, beq_iff_eq] at h
    rcases h with rfl | rfl <;> rfl
  | sleepEv ms => rfl
  | stopAllCall => simp [animShapeOk] at h
  | recordEv => simp [animShapeOk] at h
  | transcribeEv => simp [animShapeOk] at h
  | generateEv t => simp [animShapeOk] at h
  | ttsEv t => simp [animShapeOk] at h
  | getDurationEv => simp [animShapeOk] at h
  | playEv => simp [animShapeOk] at h

theorem allSuffGood_of_neutral (m : String) (tr : List Event)
    (h : ∀ e ∈ tr, ∀ st : MotorState, applyEvent st e m = st m) :
    AllSuffGood m tr := by
  intro n
  exact Or.inr (neutralFor_of_members m _
    (fun e he st => h e (List.mem_of_mem_drop he) st))

theorem allSuffGood_append (m : String) (B : List Event)
    (hF : ForcesZero m B) (hB : AllSuffGood m B) :
    ∀ A, AllSuffGood m (A ++ B) := by
  intro A
  induction A with
  | nil => simpa using hB
  | cons a A ih =>
    intro n
    match n with
    | 0 => exact Or.inl (forcesZero_append m B hF (a :: A))
    | n + 1 =>
      have h1 : ((a :: A) ++ B).drop (n + 1) = (A ++ B).drop n := by simp
      rw [h1]
      exact ih n

theorem allSuffGood_drop (m : String) (tr : List Event)
    (h : AllSuffGood m tr) (k : Nat) : AllSuffGood m (tr.drop k) := by
  intro n
  rw [List.drop_drop]
  exact h (k + n)

theorem forces_mouth_epi :
    ForcesZero "mouth" [Event.cmd "mouth" 0, Event.cmd "tail" 0] :=
  fun _ => rfl

theorem forces_tail_epi :
    ForcesZero "tail" [Event.cmd "mouth" 0, Event.cmd "tail" 0] :=
  fun _ => rfl

theorem allSuffGood_epi_mouth :
    AllSuffGood "mouth" [Event.cmd "mouth" 0, Event.cmd "tail" 0] := by
  intro n
  match n with
  | 0 => exact Or.inl forces_mouth_epi
  | 1 => exact Or.inr (fun st => rfl)
  | n + 2 =>
    have h1 : ([Event.cmd "mouth" 0, Event.cmd "tail" 0].drop (n + 2)) = [] := by
      simp
    rw [h1]
    exact Or.inr (fun st => rfl)

theorem allSuffGood_epi_tail :
    AllSuffGood "tail" [Event.cmd "mouth" 0, Event.cmd "tail" 0] := by
  intro n
  match n with
  | 0 => exact Or.inl forces_tail_epi
  | 1 => exact Or.inl (fun st => rfl)
  | n + 2 =>
    have h1 : ([Event.cmd "mouth" 0, Event.cmd "tail" 0].drop (n + 2)) = [] := by
      simp
    rw [h1]
    exact Or.inr (fun st => rfl)

theorem forces_anim_mouth (rand : Nat → Bool × Nat) (d : Nat) :
    ForcesZero "mouth" (animTrace rand d) := by
  rw [animTrace]
  exact forcesZero_append _ _ forces_mouth_epi _

theorem forces_anim_tail (rand : Nat → Bool × Nat) (d : Nat) :
    ForcesZero "tail" (animTrace rand d) := by
  rw [animTrace]
  exact forcesZero_append _ _ forces_tail_epi _

theorem allSuffGood_anim_mouth (rand : Nat → Bool × Nat) (d : Nat) :
    AllSuffGood "mouth" (animTrace rand d) := by
  rw [animTrace]
  exact allSuffGood_append _ _ forces_mouth_epi allSuffGood_epi_mouth _

theorem allSuffGood_anim_tail (rand : Nat → Bool × Nat) (d : Nat) :
    AllSuffGood "tail" (animTrace rand d) := by
  rw [animTrace]
  exact allSuffGood_append _ _ forces_tail_epi allSuffGood_epi_tail _

theorem neutral_body_anim (rand : Nat → Bool × Nat) (d : Nat) :
    NeutralFor "body" (animTrace rand d) :=
  neutralFor_of_members _ _
    (fun e he st => shape_neutral_body e (animTrace_shape rand d e he) st)

theorem allSuffGood_anim_body (rand : Nat → Bool × Nat) (d : Nat) :
    AllSuffGood "body" (animTrace rand d) :=
  allSuffGood_of_neutral _ _
    (fun e he st => shape_neutral_body e (animTrace_shape rand d e he) st)

/-- Every nonempty suffix of the cleanup path still contains the `stopAll`
call, hence forces any known motor to intensity 0. -/
theorem rti_forces (m : String) (hm : (motors m).isSome = true) :
    ∀ k, returnToIdleTrace.drop k ≠ [] → ForcesZero m (returnToIdleTrace.drop k) := by
  intro k
  match k with
  | 0 =>
    intro _ st
    show runFold returnToIdleTrace st m = 0
    simp [runFold, returnToIdleTrace, List.foldl, applyEvent, hm]
  | 1 =>
    intro _ st
    simp [runFold, returnToIdleTrace, List.foldl, applyEvent, hm]
  | 2 =>
    intro _ st
    simp [runFold, returnToIdleTrace, List.foldl, applyEvent, hm]
  | n + 3 =>
    intro h
    exfalso
    apply h
    simp [returnToIdleTrace]

theorem rti_forces0 (m : String) (hm : (motors m).isSome = true) :
    ForcesZero m returnToIdleTrace :=
  rti_forces m hm 0 (by simp [returnToIdleTrace])

/-- Interleaving preserves cleanup: if every suffix of the background
sequence is good for motor `m` and every nonempty suffix of the cleanup
sequence forces it to 0, then any interleaving of the two forces it to 0. -/
theorem mergeZeroAux (m : String) :
    ∀ (c : List Bool) (xs ys : List Event) (st : MotorState),
      AllSuffGood m xs →
      (∀ k, ys.drop k ≠ [] → ForcesZero m (ys.drop k)) →
      (st m = 0 ∨ ys ≠ []) →
      runFold (merge c xs ys) st m = 0 := by
  intro c
  induction c with
  | nil =>
    intro xs ys st hx hy h0
    match xs, ys with
    | [], [] =>
      show st m = 0
      rcases h0 with h | h
      · exact h
      · exact absurd rfl h
    | [], y :: ys =>
      show runFold (y :: ys) st m = 0
      exact hy 0 (by simp) st
    | x :: xs, [] =>
      have hst : st m = 0 := by
        rcases h0 with h | h
        · exact h
        · exact absurd rfl h
      show runFold (x :: xs) st m = 0
      have hx0 : GoodFor m (x :: xs) := by simpa using hx 0
      rcases hx0 with hf | hn
      · exact hf st
      · rw [hn st]
        exact hst
    | x :: xs, y :: ys =>
      show runFold ((x :: xs) ++ (y :: ys)) st m = 0
      rw [runFold_append]
      exact hy 0 (by simp) _
  | cons b bs ih =>
    intro xs ys st hx hy h0
    match xs, ys with
    | [], [] =>
      show st m = 0
      rcases h0 with h | h
      · exact h
      · exact absurd rfl h
    | [], y :: ys =>
      show runFold (y :: ys) st m = 0
      exact hy 0 (by simp) st
    | x :: xs, [] =>
      have hst : st m = 0 := by
        rcases h0 with h | h
        · exact h
        · exact absurd rfl h
      show runFold (x :: xs) st m = 0
      have hx0 : GoodFor m (x :: xs) := by simpa using hx 0
      rcases hx0 with hf | hn
      · exact hf st
      · rw [hn st]
        exact hst
    | x :: xs, y :: ys =>
      have hxs : AllSuffGood m xs := by
        intro n
        have h1 := hx (n + 1)
        simpa using h1
      have hys : ∀ k, ys.drop k ≠ [] → ForcesZero m (ys.drop k) := by
        intro k hk
        have h1 := hy (k + 1)
        simpa using h1 hk
      show runFold (if b then x :: merge bs xs (y :: ys)
                    else y :: merge bs (x :: xs) ys) st m = 0
      by_cases hb : b = true
      · rw [if_pos hb, runFold_cons]
        exact ih xs (y :: ys) _ hxs hy (Or.inr (by simp))
      · rw [if_neg hb, runFold_cons]
        apply ih (x :: xs) ys _ hx hys
        match ys with
        | [] =>
          left
          have h1 : ForcesZero m [y] := hy 0 (by simp)
          exact h1 st
        | y2 :: ys =>
          right
          simp

theorem mergeZero (m : String) (c : List Bool) (xs ys : List Event)
    (st : MotorState) (hx : AllSuffGood m xs)
    (hy : ∀ k, ys.drop k ≠ [] → ForcesZero m (ys.drop k)) (hne : ys ≠ []) :
    runFold (merge c xs ys) st m = 0 :=
  mergeZeroAux m c xs ys st hx hy (Or.inr hne)

/-- Events of the left (background) sequence occur in any interleaving. -/
theorem mem_merge_left (e : Event) :
    ∀ (c : List Bool) (xs ys : List Event), e ∈ xs → e ∈ merge c xs ys := by
  intro c
  induction c with
  | nil =>
    intro xs ys he
    match xs, ys with
    | x :: xs, [] => exact he
    | x :: xs, y :: ys =>
      show e ∈ (x :: xs) ++ (y :: ys)
      exact List.mem_append_left _ he
  | cons b bs ih =>
    intro xs ys he
    match xs, ys with
    | x :: xs, [] => exact he
    | x :: xs, y :: ys =>
      show e ∈ (if b then x :: merge bs xs (y :: ys)
                else y :: merge bs (x :: xs) ys)
      by_cases hb : b = true
      · rw [if_pos hb]
        rcases List.mem_cons.mp he with rfl | he2
        · exact List.mem_cons_self _ _
        · exact List.mem_cons_of_mem _ (ih xs (y :: ys) he2)
      · rw [if_neg hb]
        exact List.mem_cons_of_mem _ (ih (x :: xs) ys he)

/-- An interleaving of two sequences satisfying a Boolean predicate nowhere
satisfies it nowhere. -/
theorem merge_any_false (p : Event → Bool) :
    ∀ (c : List Bool) (xs ys : List Event), xs.any p = false →
      ys.any p = false → (merge c xs ys).any p = false := by
  intro c
  induction c with
  | nil =>
    intro xs ys hx hy
    match xs, ys with
    | [], ys => exact hy
    | x :: xs, [] => exact hx
    | x :: xs, y :: ys =>
      show ((x :: xs) ++ (y :: ys)).any p = false
      simp only [List.any_append, hx, hy, Bool.or_self]
  | cons b bs ih =>
    intro xs ys hx hy
    match xs, ys with
    | [], ys => exact hy
    | x :: xs, [] => exact hx
    | x :: xs, y :: ys =>
      simp only [List.any_cons, Bool.or_eq_false_iff] at hx hy
      show (if b then x :: merge bs xs (y :: ys)
            else y :: merge bs (x :: xs) ys).any p = false
      by_cases hb : b = true
      · rw [if_pos hb]
        simp only [List.any_cons, hx.1, Bool.false_or]
        exact ih xs (y :: ys) hx.2 (by simp [List.any_cons, hy.1, hy.2])
      · rw [if_neg hb]
        simp only [List.any_cons, hy.1, Bool.false_or]
        exact ih (x :: xs) ys (by simp [List.any_cons, hx.1, hx.2]) hy.2

theorem take3_turn (l : List Event) : (turnTrace ++ l).take 3 = turnTrace :=
  List.take_left' rfl

theorem speakFg_true (dur : Option Nat) (s : Sched) :
    speakFg true dur s =
      [Event.getDurationEv, Event.playEv] ++ animTrace s.rand (effDuration dur) := rfl

theorem speakFg_false (dur : Option Nat) (s : Sched) :
    speakFg false dur s =
      [Event.getDurationEv, Event.playEv] ++
        (animTrace s.rand (effDuration dur)).take s.split := rfl

theorem speakBg_false (dur : Option Nat) (s : Sched) :
    speakBg false dur s = (animTrace s.rand (effDuration dur)).drop s.split := rfl

theorem listenTrace_eq (c : Collab) :
    listenTrace c = [Event.recordEv, Event.transcribeEv]
    ∨ listenTrace c = [Event.recordEv] := by
  rw [listenTrace]
  cases h : c.recordOk
  · right
    rw [if_neg (by simp)]
  · left
    rw [if_pos rfl]

theorem neutral_body_listen (c : Collab) : NeutralFor "body" (listenTrace c) := by
  rcases listenTrace_eq c with h | h <;> rw [h] <;> exact fun st => rfl

theorem neutral_body_speakFg_true (dur : Option Nat) (s : Sched) :
    NeutralFor "body" (speakFg true dur s) := by
  intro st
  rw [speakFg_true, runFold_append]
  exact neutral_body_anim s.rand (effDuration dur)
    (runFold [Event.getDurationEv, Event.playEv] st)

theorem forces_mouth_speakFg_true (dur : Option Nat) (s : Sched) :
    ForcesZero "mouth" (speakFg true dur s) := by
  rw [speakFg_true]
  exact forcesZero_append _ _ (forces_anim_mouth _ _) _

theorem forces_tail_speakFg_true (dur : Option Nat) (s : Sched) :
    ForcesZero "tail" (speakFg true dur s) := by
  rw [speakFg_true]
  exact forcesZero_append _ _ (forces_anim_tail _ _) _

theorem final_of_append_neutral (m : String) (A B : List Event)
    (hB : NeutralFor m B) : finalIntensity m (A ++ B) = finalIntensity m A := by
  rw [finalIntensity, finalIntensity, runFold_append]
  exact hB _

theorem mem_merge_right (e : Event) :
    ∀ (c : List Bool) (xs ys : List Event), e ∈ ys → e ∈ merge c xs ys := by
  intro c
  induction c with
  | nil =>
    intro xs ys he
    match xs, ys with
    | [], ys => exact he
    | x :: xs, [] => exact absurd he (by simp)
    | x :: xs, y :: ys =>
      show e ∈ (x :: xs) ++ (y :: ys)
      exact List.mem_append_right _ he
  | cons b bs ih =>
    intro xs ys he
    match xs, ys with
    | [], ys => exact he
    | x :: xs, [] => exact absurd he (by simp)
    | x :: xs, y :: ys =>
      show e ∈ (if b then x :: merge bs xs (y :: ys)
                else y :: merge bs (x :: xs) ys)
      by_cases hb : b = true
      · rw [if_pos hb]
        exact List.mem_cons_of_mem _ (ih xs (y :: ys) he)
      · rw [if_neg hb]
        rcases List.mem_cons.mp he with rfl | he2
        · exact List.mem_cons_self _ _
        · exact List.mem_cons_of_mem _ (ih (x :: xs) ys he2)

theorem any_false_take (p : Event → Bool) (l : List Event) (k : Nat)
    (h : l.any p = false) : (l.take k).any p = false := by
  rw [List.any_eq_false] at h ⊢
  intro e he
  exact h e (List.mem_of_mem_take he)

theorem any_false_drop (p : Event → Bool) (l : List Event) (k : Nat)
    (h : l.any p = false) : (l.drop k).any p = false := by
  rw [List.any_eq_false] at h ⊢
  intro e he
  exact h e (List.mem_of_mem_drop he)

theorem anim_any_gen (rand : Nat → Bool × Nat) (d : Nat) :
    (animTrace rand d).any isGenEv = false := by
  rw [List.any_eq_false]
  intro e he
  simp [shape_not_gen e (animTrace_shape rand d e he)]

theorem anim_all_not_bodyReverse (rand : Nat → Bool × Nat) (d : Nat) :
    (animTrace rand d).all (fun e => !isBodyReverse e) = true := by
  rw [List.all_eq_true]
  intro e he
  simp [shape_not_bodyReverse e (animTrace_shape rand d e he)]

theorem not_stopAll_mem_anim (rand : Nat → Bool × Nat) (d : Nat) :
    Event.stopAllCall ∉ animTrace rand d := by
  intro h
  have h2 := shape_not_stopAll _ (animTrace_shape rand d _ h)
  simp [isStopAll] at h2

theorem anim_all_p (p : Event → Bool) (rand : Nat → Bool × Nat) (d : Nat)
    (hp : ∀ e, animShapeOk e = true → p e = true) :
    ∀ e ∈ animTrace rand d, p e = true :=
  fun e he => hp e (animTrace_shape rand d e he)

/-! ### Branch shapes of a started interaction -/

theorem runStarted_abort_clean (c : Collab) (s : Sched)
    (h1 : isFalsy (listenResult c) = true) (h2 : c.ttsErrOk = true)
    (h3 : c.playErrOk = true) :
    runStarted c s = ((turnTrace ++ listenTrace c) ++ [Event.ttsEv ERROR_MESSAGE] ++
      speakFg true c.durationErr s, false) := by
  unfold runStarted
  simp only []
  rw [if_pos h1, if_pos h2, if_pos h3]

theorem runStarted_abort_playFail (c : Collab) (s : Sched)
    (h1 : isFalsy (listenResult c) = true) (h2 : c.ttsErrOk = true)
    (h3 : c.playErrOk = false) :
    runStarted c s = ((turnTrace ++ listenTrace c) ++ [Event.ttsEv ERROR_MESSAGE] ++
      speakFg false c.durationErr s ++
      merge s.leftFirst (speakBg false c.durationErr s) returnToIdleTrace, false) := by
  unfold runStarted
  simp only []
  rw [if_pos h1, if_pos h2, if_neg (by simp [h3])]

theorem runStarted_abort_ttsFail (c : Collab) (s : Sched)
    (h1 : isFalsy (listenResult c) = true) (h2 : c.ttsErrOk = false) :
    runStarted c s = ((turnTrace ++ listenTrace c) ++ [Event.ttsEv ERROR_MESSAGE] ++
      returnToIdleTrace, false) := by
  unfold runStarted
  simp only []
  rw [if_pos h1, if_neg (by simp [h2])]

theorem runStarted_success_clean (c : Collab) (s : Sched)
    (h1 : isFalsy (listenResult c) = false) (ht : c.ttsOk = true)
    (hp : c.playOk = true) :
    runStarted c s = (((turnTrace ++ listenTrace c) ++
      [Event.generateEv ((listenResult c).getD "")]) ++
      [Event.ttsEv (getResponse c)] ++ speakFg true c.duration s ++
      returnToIdleTrace, false) := by
  unfold runStarted
  simp only []
  rw [if_neg (by simp [h1]), if_pos ht, if_pos hp]

theorem runStarted_success_playFail (c : Collab) (s : Sched)
    (h1 : isFalsy (listenResult c) = false) (ht : c.ttsOk = true)
    (hp : c.playOk = false) :
    runStarted c s = (((turnTrace ++ listenTrace c) ++
      [Event.generateEv ((listenResult c).getD "")]) ++
      [Event.ttsEv (getResponse c)] ++ speakFg false c.duration s ++
      merge s.leftFirst (speakBg false c.duration s) returnToIdleTrace, false) := by
  unfold runStarted
  simp only []
  rw [if_neg (by simp [h1]), if_pos ht, if_neg (by simp [hp])]

theorem runStarted_success_ttsFail (c : Collab) (s : Sched)
    (h1 : isFalsy (listenResult c) = false) (ht : c.ttsOk = false) :
    runStarted c s = (((turnTrace ++ listenTrace c) ++
      [Event.generateEv ((listenResult c).getD "")]) ++
      [Event.ttsEv (getResponse c)] ++ returnToIdleTrace, false) := by
  unfold runStarted
  simp only []
  rw [if_neg (by simp [h1]), if_neg (by simp [ht])]

/-! ## The claims -/

/-- C1.  Single-flight: an activation event delivered while the busy flag
(`isProcessing`) is true is discarded by the watcher guard (line 418) and by
the entry guard of `handleButtonPress` (line 457): no interaction starts, no
actuator command is issued, the busy flag and the commanded motor state are
unchanged.  (The watcher still updates its own `lastValue`, which is sensor
state, not orchestrator state.) -/
theorem C1_single_flight (c : Collab) (s : Sched) (lastValue : Nat)
    (reading : Option Nat) :
    (pollStep c s true lastValue reading).fired = false
    ∧ (pollStep c s true lastValue reading).events = []
    ∧ (pollStep c s true lastValue reading).busy = true
    ∧ run c s true = ([], true)
    ∧ ∀ st : MotorState,
        runFold (pollStep c s true lastValue reading).events st = st := by
  cases reading with
  | none => exact ⟨rfl, rfl, rfl, rfl, fun st => rfl⟩
  | some v =>
    have h1 : pollStep c s true lastValue (some v) = ⟨v, false, [], true⟩ := by
      rw [pollStep]
      rw [if_neg (by simp)]
    rw [h1]
    exact ⟨rfl, rfl, rfl, rfl, fun st => rfl⟩

/-- C5 counterexample.  The claim says the body actuator is commanded to
brake (not stop) after the forward turn.  In fact the command issued after
the 2000 ms forward drive is exactly the stop command `setMotor("body", 0)`
(that is what `stopMotor` is), which drives both direction pins LOW — the
DRV8833 coast/stop pattern, not the both-HIGH brake pattern; the controller
has no brake capability at all, as the complete turn trace shows. -/
theorem C5_counterexample :
    turnTrace = [Event.cmd "body" 60, Event.sleepEv 2000, Event.cmd "body" 0]
    ∧ stopMotor allOk true "body" = .ok [⟨17, 0⟩, ⟨27, 0⟩]
    ∧ setMotor allOk true "body" 0 = .ok [⟨17, 0⟩, ⟨27, 0⟩]
    ∧ ([⟨17, 0⟩, ⟨27, 0⟩] : List GpioWrite) ≠ [⟨17, 1⟩, ⟨27, 1⟩] :=
  ⟨rfl, rfl, rfl, by decide⟩

/-- C5 as amended.  Turn policy of the code: every started interaction begins
by driving the body forward at `BODY_TURN_SPEED` for `BODY_TURN_DURATION`,
then stopping it (intensity 0 — there is no brake state); `returnToIdle`
drives the body in reverse at the same speed for the same duration and then
stops all actuators via `stopAll`. -/
theorem C5_turn_policy :
    (∀ (c : Collab) (s : Sched), ((run c s false).1.take 3) = turnTrace)
    ∧ turnTrace = [Event.cmd "body" BODY_TURN_SPEED,
        Event.sleepEv BODY_TURN_DURATION, Event.cmd "body" 0]
    ∧ returnToIdleTrace = [Event.cmd "body" (-BODY_TURN_SPEED),
        Event.sleepEv BODY_TURN_DURATION, Event.stopAllCall] := by
  refine ⟨?_, rfl, rfl⟩
  intro c s
  show (runStarted c s).1.take 3 = turnTrace
  unfold runStarted
  simp only []
  split
  · split
    · split
      · simp only [List.append_assoc]
        exact take3_turn _
      · simp only [List.append_assoc]
        exact take3_turn _
    · simp only [List.append_assoc]
      exact take3_turn _
  · split
    · split
      · simp only [List.append_assoc]
        exact take3_turn _
      · simp only [List.append_assoc]
        exact take3_turn _
    · simp only [List.append_assoc]
      exact take3_turn _

/-- C8.  Drive clamping and stop semantics of `MotorController.setMotor`:
any signed intensity is clamped into [-100, 100] (the call behaves exactly
as the clamped call, never errors); `stopMotor` is exactly `setMotor _ 0`;
intensity 0 drives both direction pins LOW (stop); a positive intensity
selects forward (pin1 HIGH, pin2 LOW); a negative intensity selects reverse
(pin1 LOW, pin2 HIGH). -/
theorem C8_drive_semantics (env : Nat → Nat → Bool) (name : String)
    (speed : Int) (m : Motor) (hm : motors name = some m) :
    setMotor env true name speed = setMotor env true name (clampSpeed speed)
    ∧ stopMotor env true name = setMotor env true name 0
    ∧ setMotor allOk true name 0 = .ok [⟨m.pin1, 0⟩, ⟨m.pin2, 0⟩]
    ∧ (0 < speed → setMotor allOk true name speed = .ok [⟨m.pin1, 1⟩, ⟨m.pin2, 0⟩])
    ∧ (speed < 0 → setMotor allOk true name speed = .ok [⟨m.pin1, 0⟩, ⟨m.pin2, 1⟩]) := by
  have hsm : ∀ (env2 : Nat → Nat → Bool) (sp : Int), setMotor env2 true name sp =
      (let s := clampSpeed sp
       let w1 : GpioWrite :=
         if s = 0 then ⟨m.pin1, 0⟩ else if 0 < s then ⟨m.pin1, 1⟩ else ⟨m.pin1, 0⟩
       let w2 : GpioWrite :=
         if s = 0 then ⟨m.pin2, 0⟩ else if 0 < s then ⟨m.pin2, 0⟩ else ⟨m.pin2, 1⟩
       if env2 w1.pin w1.value then .ok [w1, w2] else .ok [w1]) := by
    intro env2 sp
    rw [setMotor, if_neg (by decide), hm]
  have hclamp : clampSpeed (clampSpeed speed) = clampSpeed speed := by
    simp only [clampSpeed, min_def, max_def]
    split_ifs <;> omega
  refine ⟨?_, rfl, ?_, ?_, ?_⟩
  · rw [hsm env speed, hsm env (clampSpeed speed), hclamp]
  · rw [hsm allOk 0]
    rfl
  · intro hpos
    have h2 : 0 < clampSpeed speed := by
      simp only [clampSpeed, min_def, max_def]
      split_ifs <;> omega
    rw [hsm allOk speed]
    simp only [if_neg (by omega : ¬(clampSpeed speed = 0)), if_pos h2]
    rfl
  · intro hneg
    have h2 : clampSpeed speed < 0 := by
      simp only [clampSpeed, min_def, max_def]
      split_ifs <;> omega
    rw [hsm allOk speed]
    simp only [if_neg (by omega : ¬(clampSpeed speed = 0)),
      if_neg (by omega : ¬(0 < clampSpeed speed))]
    rfl

/-- C8 witness at the body motor with the out-of-range intensity 150. -/
theorem C8_drive_semantics_witness :
    (setMotor allOk true "body" 150 = setMotor allOk true "body" (clampSpeed 150))
    ∧ stopMotor allOk true "body" = setMotor allOk true "body" 0
    ∧ setMotor allOk true "body" 0 = .ok [⟨17, 0⟩, ⟨27, 0⟩]
    ∧ (0 < (150 : Int) → setMotor allOk true "body" 150 = .ok [⟨17, 1⟩, ⟨27, 0⟩])
    ∧ ((150 : Int) < 0 → setMotor allOk true "body" 150 = .ok [⟨17, 0⟩, ⟨27, 1⟩]) :=
  C8_drive_semantics allOk "body" 150 ⟨17, 27, 12⟩ rfl

/-- C9.  Implicit totality of the motor port: a `setMotor` call before
initialization, or on an unknown motor name, returns normally (`.ok`, the
source logs and returns) and issues no GPIO command; `stopAll` is likewise
callable in the uninitialized state and issues nothing. -/
theorem C9_total_port (env : Nat → Nat → Bool) (init : Bool) (name : String)
    (speed : Int) :
    setMotor env false name speed = .ok []
    ∧ (motors name = none → setMotor env init name speed = .ok [])
    ∧ stopAll env false = .ok [] := by
  refine ⟨rfl, ?_, rfl⟩
  intro hn
  cases init with
  | false => rfl
  | true =>
    rw [setMotor, if_neg (by decide), hn]

/-- C9 witness: the unknown motor name "fin", uninitialized calls. -/
theorem C9_total_port_witness :
    setMotor allOk false "fin" 42 = .ok []
    ∧ setMotor allOk true "fin" 42 = .ok []
    ∧ stopAll allOk false = .ok [] :=
  ⟨(C9_total_port allOk true "fin" 42).1,
   (C9_total_port allOk true "fin" 42).2.1 (by decide),
   (C9_total_port allOk true "fin" 42).2.2⟩

/-- C2 counterexample.  A completed abort interaction (transcription empty,
apology spoken successfully): the interaction ends with busy cleared and all
three motors last commanded to 0, yet no `stopAll` call is ever issued on
this exit path — `handleButtonPress` returns early after `sayError` without
`returnToIdle`, so the claimed "stop-all on every exit path" is false; the
motors are only stopped piecewise by `turnTowardUser` and `animateSpeech`. -/
theorem C2_counterexample :
    (run ⟨true, none, true, "", true, true, some 0, some 0, true, true⟩
        ⟨fun _ => (true, 0), 0, []⟩ false).2 = false
    ∧ finalIntensity "body" (run ⟨true, none, true, "", true, true, some 0,
        some 0, true, true⟩ ⟨fun _ => (true, 0), 0, []⟩ false).1 = 0
    ∧ finalIntensity "mouth" (run ⟨true, none, true, "", true, true, some 0,
        some 0, true, true⟩ ⟨fun _ => (true, 0), 0, []⟩ false).1 = 0
    ∧ finalIntensity "tail" (run ⟨true, none, true, "", true, true, some 0,
        some 0, true, true⟩ ⟨fun _ => (true, 0), 0, []⟩ false).1 = 0
    ∧ Event.stopAllCall ∉ (run ⟨true, none, true, "", true, true, some 0,
        some 0, true, true⟩ ⟨fun _ => (true, 0), 0, []⟩ false).1 := by
  decide

/-- C2 as amended.  Unconditional cleanup of commanded state: for every
started interaction, under every collaborator fault combination and every
scheduling of the background animation against the cleanup path, the final
commanded intensity of body, mouth and tail is 0 and the busy flag ends
false.  (A `stopAll` call is issued on the success and exception exit paths;
on the empty-transcript abort path the motors are instead left stopped by
the individual stop commands of the preceding phases.) -/
theorem C2_cleanup (c : Collab) (s : Sched) :
    (run c s false).2 = false
    ∧ finalIntensity "body" (run c s false).1 = 0
    ∧ finalIntensity "mouth" (run c s false).1 = 0
    ∧ finalIntensity "tail" (run c s false).1 = 0 := by
  have hrun : run c s false = runStarted c s := rfl
  rw [hrun]
  have hmZ : ∀ (m : String), (motors m).isSome = true →
      ∀ (A : List Event) (bg : List Event), AllSuffGood m bg →
      finalIntensity m (A ++ merge s.leftFirst bg returnToIdleTrace) = 0 := by
    intro m hm A bg hbg
    rw [finalIntensity, runFold_append]
    exact mergeZero m s.leftFirst bg returnToIdleTrace _ hbg
      (rti_forces m hm) (by simp [returnToIdleTrace])
  cases hf : isFalsy (listenResult c) with
  | true =>
    cases h2 : c.ttsErrOk with
    | true =>
      cases h3 : c.playErrOk with
      | true =>
        rw [runStarted_abort_clean c s hf h2 h3]
        refine ⟨rfl, ?_, ?_, ?_⟩
        · rw [final_of_append_neutral _ _ _ (neutral_body_speakFg_true _ _),
            final_of_append_neutral _ _ _
              (fun st => rfl : NeutralFor "body" [Event.ttsEv ERROR_MESSAGE]),
            final_of_append_neutral _ _ _ (neutral_body_listen c)]
          rfl
        · exact final_of_append_forces _ _ _ (forces_mouth_speakFg_true _ _)
        · exact final_of_append_forces _ _ _ (forces_tail_speakFg_true _ _)
      | false =>
        rw [runStarted_abort_playFail c s hf h2 h3]
        refine ⟨rfl, ?_, ?_, ?_⟩
        · exact hmZ "body" rfl _ _
            (by rw [speakBg_false]
                exact allSuffGood_drop _ _ (allSuffGood_anim_body _ _) _)
        · exact hmZ "mouth" rfl _ _
            (by rw [speakBg_false]
                exact allSuffGood_drop _ _ (allSuffGood_anim_mouth _ _) _)
        · exact hmZ "tail" rfl _ _
            (by rw [speakBg_false]
                exact allSuffGood_drop _ _ (allSuffGood_anim_tail _ _) _)
    | false =>
      rw [runStarted_abort_ttsFail c s hf h2]
      refine ⟨rfl, ?_, ?_, ?_⟩
      · exact final_of_append_forces _ _ _ (rti_forces0 "body" rfl)
      · exact final_of_append_forces _ _ _ (rti_forces0 "mouth" rfl)
      · exact final_of_append_forces _ _ _ (rti_forces0 "tail" rfl)
  | false =>
    cases ht : c.ttsOk with
    | true =>
      cases hp : c.playOk with
      | true =>
        rw [runStarted_success_clean c s hf ht hp]
        refine ⟨rfl, ?_, ?_, ?_⟩
        · exact final_of_append_forces _ _ _ (rti_forces0 "body" rfl)
        · exact final_of_append_forces _ _ _ (rti_forces0 "mouth" rfl)
        · exact final_of_append_forces _ _ _ (rti_forces0 "tail" rfl)
      | false =>
        rw [runStarted_success_playFail c s hf ht hp]
        refine ⟨rfl, ?_, ?_, ?_⟩
        · exact hmZ "body" rfl _ _
            (by rw [speakBg_false]
                exact allSuffGood_drop _ _ (allSuffGood_anim_body _ _) _)
        · exact hmZ "mouth" rfl _ _
            (by rw [speakBg_false]
                exact allSuffGood_drop _ _ (allSuffGood_anim_mouth _ _) _)
        · exact hmZ "tail" rfl _ _
            (by rw [speakBg_false]
                exact allSuffGood_drop _ _ (allSuffGood_anim_tail _ _) _)
    | false =>
      rw [runStarted_success_ttsFail c s hf ht]
      refine ⟨rfl, ?_, ?_, ?_⟩
      · exact final_of_append_forces _ _ _ (rti_forces0 "body" rfl)
      · exact final_of_append_forces _ _ _ (rti_forces0 "mouth" rfl)
      · exact final_of_append_forces _ _ _ (rti_forces0 "tail" rfl)

/-- C4 counterexample.  A completed abort interaction with an empty-string
transcript and a successfully spoken apology: the apology TTS call is made,
but the trace contains no reverse body command and no stop-all call — the
early return after `sayError` skips `returnToIdle` entirely, so the claimed
"then drives the body actuator in reverse and stops all actuators before
reaching Idle" is false. -/
theorem C4_counterexample :
    Event.ttsEv ERROR_MESSAGE ∈ (run ⟨true, some "", true, "x", true, true,
        some 0, some 0, true, true⟩ ⟨fun _ => (true, 0), 0, []⟩ false).1
    ∧ ((run ⟨true, some "", true, "x", true, true, some 0, some 0, true,
        true⟩ ⟨fun _ => (true, 0), 0, []⟩ false).1.all
        fun e => !isBodyReverse e) = true
    ∧ Event.stopAllCall ∉ (run ⟨true, some "", true, "x", true, true, some 0,
        some 0, true, true⟩ ⟨fun _ => (true, 0), 0, []⟩ false).1 := by
  decide

/-- C4 as amended.  When transcription is empty or failed and the apology
collaborators succeed, the orchestrator speaks the fixed apology phrase
(reusing the Speaking animation path: the apology TTS call and a playback
occur) and then clears busy directly; it does not drive the body in reverse
and does not issue a stop-all call on this path. -/
theorem C4_abort_behavior (c : Collab) (s : Sched)
    (h1 : isFalsy (listenResult c) = true) (h2 : c.ttsErrOk = true)
    (h3 : c.playErrOk = true) :
    Event.ttsEv ERROR_MESSAGE ∈ (run c s false).1
    ∧ Event.playEv ∈ (run c s false).1
    ∧ ((run c s false).1.all fun e => !isBodyReverse e) = true
    ∧ Event.stopAllCall ∉ (run c s false).1
    ∧ (run c s false).2 = false := by
  have hrun : run c s false = runStarted c s := rfl
  rw [hrun, runStarted_abort_clean c s h1 h2 h3]
  refine ⟨?_, ?_, ?_, ?_, rfl⟩
  · simp [List.mem_append]
  · rw [speakFg_true]
    simp [List.mem_append]
  · simp only [List.all_append, Bool.and_eq_true]
    refine ⟨⟨⟨?_, ?_⟩, ?_⟩, ?_⟩
    · decide
    · rcases listenTrace_eq c with he | he <;> rw [he] <;> decide
    · decide
    · rw [speakFg_true]
      simp only [List.all_append, Bool.and_eq_true]
      exact ⟨by decide, anim_all_not_bodyReverse _ _⟩
  · intro hmem
    rw [speakFg_true] at hmem
    rcases List.mem_append.mp hmem with h | h
    · rcases List.mem_append.mp h with h | h
      · rcases List.mem_append.mp h with h | h
        · simp [turnTrace] at h
        · rcases listenTrace_eq c with he | he <;> rw [he] at h <;> simp at h
      · simp at h
    · rcases List.mem_append.mp h with h | h
      · simp at h
      · exact not_stopAll_mem_anim _ _ h

/-- C4 witness: the concrete abort run of the counterexample, with the
hypotheses discharged. -/
theorem C4_abort_behavior_witness :
    Event.ttsEv ERROR_MESSAGE ∈ (run ⟨true, none, true, "x", true, true,
        some 0, some 0, true, true⟩ ⟨fun _ => (false, 7), 2, [true]⟩ false).1
    ∧ Event.playEv ∈ (run ⟨true, none, true, "x", true, true, some 0, some 0,
        true, true⟩ ⟨fun _ => (false, 7), 2, [true]⟩ false).1
    ∧ ((run ⟨true, none, true, "x", true, true, some 0, some 0, true, true⟩
        ⟨fun _ => (false, 7), 2, [true]⟩ false).1.all
        fun e => !isBodyReverse e) = true
    ∧ Event.stopAllCall ∉ (run ⟨true, none, true, "x", true, true, some 0,
        some 0, true, true⟩ ⟨fun _ => (false, 7), 2, [true]⟩ false).1
    ∧ (run ⟨true, none, true, "x", true, true, some 0, some 0, true, true⟩
        ⟨fun _ => (false, 7), 2, [true]⟩ false).2 = false :=
  C4_abort_behavior _ _ (by decide) (by decide) (by decide)

/-- C7.  Abort skips generation: whenever capture or transcription yields no
transcript (a falsy result), the response generator is never invoked in any
fault/scheduling combination, the interaction ends with busy false, and when
the apology collaborators succeed the fixed apology phrase is synthesized
and played. -/
theorem C7_skip_generator (c : Collab) (s : Sched)
    (h1 : isFalsy (listenResult c) = true) :
    callsGenerator (run c s false).1 = false
    ∧ (run c s false).2 = false
    ∧ (c.ttsErrOk = true → c.playErrOk = true →
        Event.ttsEv ERROR_MESSAGE ∈ (run c s false).1
        ∧ Event.playEv ∈ (run c s false).1) := by
  have hrun : run c s false = runStarted c s := rfl
  rw [hrun]
  cases h2 : c.ttsErrOk with
  | false =>
    rw [runStarted_abort_ttsFail c s h1 h2]
    refine ⟨?_, rfl, ?_⟩
    · rw [callsGenerator]
      simp only [List.any_append, Bool.or_eq_false_iff]
      refine ⟨⟨⟨?_, ?_⟩, ?_⟩, ?_⟩
      · decide
      · rcases listenTrace_eq c with he | he <;> rw [he] <;> decide
      · decide
      · decide
    · intro ha _
      exact absurd ha (by decide)
  | true =>
    cases h3 : c.playErrOk with
    | false =>
      rw [runStarted_abort_playFail c s h1 h2 h3]
      refine ⟨?_, rfl, ?_⟩
      · rw [callsGenerator]
        simp only [List.any_append, Bool.or_eq_false_iff]
        refine ⟨⟨⟨⟨?_, ?_⟩, ?_⟩, ?_⟩, ?_⟩
        · decide
        · rcases listenTrace_eq c with he | he <;> rw [he] <;> decide
        · decide
        · rw [speakFg_false]
          simp only [List.any_append, Bool.or_eq_false_iff]
          exact ⟨by decide, any_false_take _ _ _ (anim_any_gen _ _)⟩
        · rw [speakBg_false]
          exact merge_any_false _ _ _ _
            (any_false_drop _ _ _ (anim_any_gen _ _)) (by decide)
      · intro _ hb
        exact absurd hb (by decide)
    | true =>
      rw [runStarted_abort_clean c s h1 h2 h3]
      refine ⟨?_, rfl, ?_⟩
      · rw [callsGenerator]
        simp only [List.any_append, Bool.or_eq_false_iff]
        refine ⟨⟨⟨?_, ?_⟩, ?_⟩, ?_⟩
        · decide
        · rcases listenTrace_eq c with he | he <;> rw [he] <;> decide
        · decide
        · rw [speakFg_true]
          simp only [List.any_append, Bool.or_eq_false_iff]
          exact ⟨by decide, anim_any_gen _ _⟩
      · intro _ _
        constructor
        · simp [List.mem_append]
        · rw [speakFg_true]
          simp [List.mem_append]

/-- C7 witness: a failed recording (so no transcript), apology collaborators
succeeding. -/
theorem C7_skip_generator_witness :
    callsGenerator (run ⟨false, some "ignored", true, "x", true, true, some 0,
        some 0, true, true⟩ ⟨fun _ => (true, 3), 1, [false]⟩ false).1 = false
    ∧ (run ⟨false, some "ignored", true, "x", true, true, some 0, some 0,
        true, true⟩ ⟨fun _ => (true, 3), 1, [false]⟩ false).2 = false
    ∧ Event.ttsEv ERROR_MESSAGE ∈ (run ⟨false, some "ignored", true, "x",
        true, true, some 0, some 0, true, true⟩
        ⟨fun _ => (true, 3), 1, [false]⟩ false).1
    ∧ Event.playEv ∈ (run ⟨false, some "ignored", true, "x", true, true,
        some 0, some 0, true, true⟩ ⟨fun _ => (true, 3), 1, [false]⟩ false).1 := by
  have h := C7_skip_generator ⟨false, some "ignored", true, "x", true, true,
    some 0, some 0, true, true⟩ ⟨fun _ => (true, 3), 1, [false]⟩ (by decide)
  exact ⟨h.1, h.2.1, (h.2.2 rfl rfl).1, (h.2.2 rfl rfl).2⟩

/-- C6 counterexample.  `Promise.all` is fail-fast: with playback rejecting
immediately and the animation settling at 3000 ms, the join settles
(rejects) at once without waiting for the animation, and nothing cancels
the animation, so cleanup begins while it is still running and its drive
commands land after the cleanup stop-all — refuting the claimed clean
join/cancellation before cleanup.  The instantiated schedule follows the
timing of the source at this input.  Duration probe: 3000 ms; `rand` jitter
0, so every animation step sleeps exactly 150 ms and iteration `i` issues
its mouth/tail commands at elapsed time `150 * i` for `i = 0..19`, with the
final mouth/tail stops at 3000 ms.  `animateSpeech` issues its first mouth
command synchronously, before `await Promise.all` can observe anything, so
at the moment the immediate playback rejection is observed exactly one
animation event has been emitted: `split = 1`.  The catch then runs
`returnToIdle`: reverse body drive and the `sleep` call at time about 0,
`stopAll` at about 2000 ms.  The interleaving `leftFirst` is the time
order: first the two cleanup events at time 0, then the 41 animation
events due before 2000 ms (the 2 remaining events of iteration 0 plus 3
events for each of iterations 1..13, the last at 1950 ms), then `stopAll`
at 2000 ms, then the remaining animation events (iterations 14..19 at
2100..2850 ms and the stops at 3000 ms), which include mouth and tail
drive commands after the stop-all. -/
theorem C6_counterexample :
    promiseAll2 ⟨false, 0⟩ ⟨true, 3000⟩ = ⟨false, 0⟩
    ∧ noAnimAfterStopAll (run ⟨true, some "hi", true, "r", true, true,
        some 3000, some 3000, false, true⟩ ⟨fun _ => (true, 0), 1,
        [false, false] ++ List.replicate 41 true ++ [false]⟩ false).1 = false :=
  ⟨rfl, by decide⟩

/-- C6 as amended.  The Speaking phase runs playback and animation
concurrently and, when both succeed, joins both before advancing (no
animation drive occurs at or after the cleanup stop-all, and `Promise.all`
settles at the later settle time).  When playback fails, `Promise.all`
rejects immediately: the orchestrator advances to cleanup without awaiting
or cancelling the animation, which continues concurrently — every animation
event, including its own mouth/tail stop commands, still occurs in the
trace, interleaved with the cleanup that has already begun. -/
theorem C6_join_behavior (c : Collab) (s : Sched)
    (h1 : isFalsy (listenResult c) = false) (ht : c.ttsOk = true) :
    (c.playOk = true → noAnimAfterStopAll (run c s false).1 = true)
    ∧ (c.playOk = false →
        Event.stopAllCall ∈ (run c s false).1
        ∧ ∀ e ∈ animTrace s.rand (effDuration c.duration), e ∈ (run c s false).1)
    ∧ (∀ a b : Task, a.ok = true → b.ok = true →
        promiseAll2 a b = ⟨true, max a.time b.time⟩) := by
  have hrun : run c s false = runStarted c s := rfl
  refine ⟨?_, ?_, ?_⟩
  · intro hp
    rw [hrun, runStarted_success_clean c s h1 ht hp]
    rw [noAnimAfterStopAll]
    have hA : ∀ a ∈ (((turnTrace ++ listenTrace c) ++
        [Event.generateEv ((listenResult c).getD "")]) ++
        [Event.ttsEv (getResponse c)] ++ speakFg true c.duration s),
        (fun e => !isStopAll e) a = true := by
      intro a ha
      rcases List.mem_append.mp ha with h | h
      · rcases List.mem_append.mp h with h | h
        · rcases List.mem_append.mp h with h | h
          · rcases List.mem_append.mp h with h | h
            · exact List.all_eq_true.mp
                (show turnTrace.all (fun e => !isStopAll e) = true by decide) a h
            · rcases listenTrace_eq c with he | he <;> rw [he] at h
              · exact List.all_eq_true.mp
                  (show List.all [Event.recordEv, Event.transcribeEv]
                    (fun e => !isStopAll e) = true by decide) a h
              · exact List.all_eq_true.mp
                  (show List.all [Event.recordEv]
                    (fun e => !isStopAll e) = true by decide) a h
          · rcases (by simpa using h :
              a = Event.generateEv ((listenResult c).getD "")) with rfl
            rfl
        · rcases (by simpa using h : a = Event.ttsEv (getResponse c)) with rfl
          rfl
      · rw [speakFg_true] at h
        rcases List.mem_append.mp h with h | h
        · exact List.all_eq_true.mp
            (show List.all [Event.getDurationEv, Event.playEv]
              (fun e => !isStopAll e) = true by decide) a h
        · simp [shape_not_stopAll a (animTrace_shape _ _ a h)]
    rw [List.dropWhile_append_of_pos hA]
    decide
  · intro hp
    rw [hrun, runStarted_success_playFail c s h1 ht hp, speakFg_false,
      speakBg_false]
    constructor
    · exact List.mem_append_right _
        (mem_merge_right _ _ _ _ (by simp [returnToIdleTrace]))
    · intro e he
      rw [← List.take_append_drop s.split
        (animTrace s.rand (effDuration c.duration))] at he
      rcases List.mem_append.mp he with h | h
      · refine List.mem_append_left _ ?_
        refine List.mem_append_right _ ?_
        exact List.mem_append_right _ h
      · exact List.mem_append_right _ (mem_merge_left _ _ _ _ h)
  · intro a b ha hb
    simp [promiseAll2, ha, hb]

/-- C6 witness: a successful interaction (playback resolves), with the
hypotheses discharged. -/
theorem C6_join_behavior_witness :
    ((true : Bool) = true → noAnimAfterStopAll (run ⟨true, some "hi", true,
        "r", true, true, some 0, some 0, true, true⟩
        ⟨fun _ => (true, 0), 0, []⟩ false).1 = true)
    ∧ ((true : Bool) = false →
        Event.stopAllCall ∈ (run ⟨true, some "hi", true, "r", true, true,
          some 0, some 0, true, true⟩ ⟨fun _ => (true, 0), 0, []⟩ false).1
        ∧ ∀ e ∈ animTrace (fun _ => (true, 0)) (effDuration (some 0)),
            e ∈ (run ⟨true, some "hi", true, "r", true, true, some 0, some 0,
              true, true⟩ ⟨fun _ => (true, 0), 0, []⟩ false).1)
    ∧ (∀ a b : Task, a.ok = true → b.ok = true →
        promiseAll2 a b = ⟨true, max a.time b.time⟩) :=
  C6_join_behavior ⟨true, some "hi", true, "r", true, true, some 0, some 0,
    true, true⟩ ⟨fun _ => (true, 0), 0, []⟩ (by decide) (by decide)

/-- Every activation index produced by the watcher lies at or after the poll
index the run started from. -/
theorem watchRun_mem_ge (reads : Nat → Option Nat) (busy : Nat → Bool) :
    ∀ n last i j, j ∈ watchRun reads busy n last i → i ≤ j := by
  intro n
  induction n with
  | zero => intro last i j h; simp [watchRun] at h
  | succ n ih =>
    intro last i j h
    rw [watchRun] at h
    cases hr : reads i with
    | none =>
      simp only [hr] at h
      have := ih _ _ _ h
      omega
    | some v =>
      simp only [hr] at h
      by_cases hc : (v = 0 ∧ last = 1 ∧ busy i = false)
      · rw [if_pos hc] at h
        rcases List.mem_cons.mp h with rfl | h2
        · omega
        · have := ih _ _ _ h2
          omega
      · rw [if_neg hc] at h
        have := ih _ _ _ h
        omega

/-- When the running `lastValue` is not the inactive level 1, no activation
can fire until a successful read of 1 has occurred. -/
theorem watchRun_fire_needs_one (reads : Nat → Option Nat) (busy : Nat → Bool) :
    ∀ n last i j, last ≠ 1 → j ∈ watchRun reads busy n last i →
      ∃ k, i ≤ k ∧ k < j ∧ reads k = some 1 := by
  intro n
  induction n with
  | zero => intro last i j _ h; simp [watchRun] at h
  | succ n ih =>
    intro last i j hlast h
    rw [watchRun] at h
    cases hr : reads i with
    | none =>
      simp only [hr] at h
      obtain ⟨k, hk1, hk2, hk3⟩ := ih _ _ _ hlast h
      exact ⟨k, by omega, hk2, hk3⟩
    | some v =>
      simp only [hr] at h
      have hcond : ¬(v = 0 ∧ last = 1 ∧ busy i = false) := fun hc => hlast hc.2.1
      rw [if_neg hcond] at h
      by_cases hv : v = 1
      · subst hv
        have hj : i + 1 ≤ j := watchRun_mem_ge reads busy n 1 (i + 1) j h
        exact ⟨i, le_refl i, by omega, hr⟩
      · obtain ⟨k, hk1, hk2, hk3⟩ := ih v (i + 1) j hv h
        exact ⟨k, by omega, hk2, hk3⟩

/-- Between any two activations there is a successful read of the inactive
level 1. -/
theorem watchRun_two_fires (reads : Nat → Option Nat) (busy : Nat → Bool) :
    ∀ n last i0 i j, i ∈ watchRun reads busy n last i0 →
      j ∈ watchRun reads busy n last i0 → i < j →
      ∃ k, i < k ∧ k < j ∧ reads k = some 1 := by
  intro n
  induction n with
  | zero => intro last i0 i j hi _ _; simp [watchRun] at hi
  | succ n ih =>
    intro last i0 i j hi hj hij
    rw [watchRun] at hi hj
    cases hr : reads i0 with
    | none =>
      simp only [hr] at hi hj
      exact ih _ _ _ _ hi hj hij
    | some v =>
      simp only [hr] at hi hj
      by_cases hc : (v = 0 ∧ last = 1 ∧ busy i0 = false)
      · rw [if_pos hc] at hi hj
        rcases List.mem_cons.mp hi with rfl | hi2
        · rcases List.mem_cons.mp hj with rfl | hj2
          · omega
          · obtain ⟨k, hk1, hk2, hk3⟩ := watchRun_fire_needs_one reads busy n v
              (i + 1) j (by omega : v ≠ 1) hj2
            exact ⟨k, by omega, hk2, hk3⟩
        · rcases List.mem_cons.mp hj with rfl | hj2
          · have := watchRun_mem_ge reads busy n v (j + 1) i hi2
            omega
          · exact ih _ _ _ _ hi2 hj2 hij
      · rw [if_neg hc] at hi hj
        exact ih _ _ _ _ hi hj hij

/-- C3.  Debounce behavior of the button watcher: between any two
activations there are at least two poll periods (polls are 100 ms apart, so
at least 200 ms — one debounce window — elapses) and a successful read of
the inactive level 1 occurs strictly between them: after an activation the
watcher fires again only once the level has returned to inactive and the
window has elapsed, so bounce within a poll period and a held button never
re-trigger. -/
theorem C3_debounce (reads : Nat → Option Nat) (busy : Nat → Bool)
    (n init i j : Nat) (hi : i ∈ activations reads busy n init)
    (hj : j ∈ activations reads busy n init) (hij : i < j) :
    i + 2 ≤ j ∧ 100 * i + 200 ≤ 100 * j
    ∧ ∃ k, i < k ∧ k < j ∧ reads k = some 1 := by
  obtain ⟨k, hk1, hk2, hk3⟩ := watchRun_two_fires reads busy n init 0 i j hi hj hij
  exact ⟨by omega, by omega, k, hk1, hk2, hk3⟩

/-- C3 witness: readings 0, 1, 0 from initial level 1 produce activations at
polls 0 and 2, which satisfy the debounce conclusions. -/
theorem C3_debounce_witness :
    0 + 2 ≤ 2 ∧ 100 * 0 + 200 ≤ 100 * 2
    ∧ ∃ k, 0 < k ∧ k < 2 ∧
        (fun t => some (if t = 1 then 1 else 0)) k = some 1 :=
  C3_debounce (fun t => some (if t = 1 then 1 else 0)) (fun _ => false) 3 1 0 2
    (by decide) (by decide) (by decide)

/-- C10.  The configuration assigns the button input and the body motor
direction pin 1 to the same GPIO line 17, so the sensor reading is NOT
independent of body-motor commands: from the idle line state (pull-up, all
lines at 1) the button read returns 1 when no motor command was issued, but
returns 0 — a phantom button press — after the reverse body drive of
`returnToIdle` issued its writes, which drive line 17 LOW.  The README of
the repository states that GPIO 17 is used by the body motor driver and that
the button must use GPIO 5 instead, so `BUTTON_PIN: 17` contradicts the
documentation of the code itself. -/
theorem C10_pin_conflict :
    BUTTON_PIN = MOTOR_BODY_PIN1
    ∧ setMotor allOk true "body" (-BODY_TURN_SPEED) =
        .ok [⟨BUTTON_PIN, 0⟩, ⟨MOTOR_BODY_PIN2, 1⟩]
    ∧ readGpio (applyWrites idleLines []) BUTTON_PIN = 1
    ∧ readGpio (applyWrites idleLines [⟨BUTTON_PIN, 0⟩, ⟨MOTOR_BODY_PIN2, 1⟩])
        BUTTON_PIN = 0 :=
  ⟨rfl, rfl, rfl, rfl⟩

end BillyBass
